import Mathlib

/-!
Verification of the `controllerSets` package (Express/Mongoose CRUD glue).

The JavaScript sources are shallowly embedded: request query strings become
`String → Option String` maps, JS objects used as dictionaries become
association lists with assignment-replaces-in-place semantics, promises and
thrown errors become `Except`, and the external database / storage
collaborators are passed in as explicit data (a list of matching documents,
a `findById` function, a list of uploaded files).

Definitions come first, then the lemmas and theorems about them.
-/

/-- JS truthiness of a possibly-absent query-string or environment value:
`undefined` and the empty string are falsy, every other string is truthy. -/
def jsTruthy (v : Option String) : Bool :=
  match v with
  | none => false
  | some s => !(s == "")

/-- JS object assignment `m[k] = v` on an object viewed as an ordered
association list: replace the value in place if the key is present,
otherwise append the new binding. -/
def setKey {α : Type} (m : List (String × α)) (k : String) (v : α) :
    List (String × α) :=
  match m with
  | [] => [(k, v)]
  | (k', v') :: rest => if k' = k then (k, v) :: rest else (k', v') :: setKey rest k v

/-- JS property read `m[k]` on an object viewed as an association list. -/
def getVal {α : Type} (m : List (String × α)) (k : String) : Option α :=
  match m with
  | [] => none
  | (k', v) :: rest => if k' = k then some v else getVal rest k

/-- JS `parseInt` on a radix-10 string: skip leading whitespace, read an
optional sign and then a maximal run of digits; `none` models `NaN`. -/
def jsParseInt (s : String) : Option Int :=
  match s.toList.dropWhile (fun c => c == ' ' || c == '\t' || c == '\n' || c == '\r') with
  | '-' :: rest =>
    if (rest.takeWhile Char.isDigit).isEmpty then none
    else some (-((rest.takeWhile Char.isDigit).foldl (fun n c => 10 * n + (c.toNat - 48)) 0 : Nat))
  | '+' :: rest =>
    if (rest.takeWhile Char.isDigit).isEmpty then none
    else some (((rest.takeWhile Char.isDigit).foldl (fun n c => 10 * n + (c.toNat - 48)) 0 : Nat))
  | rest =>
    if (rest.takeWhile Char.isDigit).isEmpty then none
    else some (((rest.takeWhile Char.isDigit).foldl (fun n c => 10 * n + (c.toNat - 48)) 0 : Nat))

/-- JS `x || d` for a number `x`: `NaN` (here `none`) and `0` are falsy. -/
def intOrElse (x : Option Int) (d : Int) : Int :=
  match x with
  | none => d
  | some n => if n = 0 then d else n

namespace ControllerSets

/-- A value stored in the Mongo filter object built by `getAll`
(src/ControllerSets.js, lines 65–77): either the raw query-string value
copied verbatim (`acc[queryKey] = req.query[queryKey]`), or the
`{$regex: ..., $options: "i"}` object installed for the search field. -/
inductive FilterVal where
  | verbatim (v : String)
  | regex (pattern : String) (options : String)
  deriving DecidableEq, Repr

/-- The `reduce` in `getAll` (lines 65–70): for each allow-listed field that is
present in `req.query` (`!== undefined`), copy the raw value into the filter. -/
def baseFilters (queryList : List String) (q : String → Option String) :
    List (String × FilterVal) :=
  queryList.foldl
    (fun acc k =>
      match q k with
      | some v => setKey acc k (.verbatim v)
      | none => acc)
    []

/-- The filter object issued to the database by `getAll`
(src/ControllerSets.js lines 65–77): the allow-list `reduce`, followed by the
search override `filters[this.search] = {$regex: ..., $options: "i"}`, guarded
by `this.search !== "none" && req.query[this.search]` (JS truthiness: an empty
string does not trigger the search branch). -/
def buildFilters (queryList : List String) (search : String)
    (q : String → Option String) : List (String × FilterVal) :=
  match q search with
  | some v =>
    if search ≠ "none" ∧ v ≠ "" then
      setKey (baseFilters queryList q) search (.regex v "i")
    else
      baseFilters queryList q
  | none => baseFilters queryList q

/-- Sort direction, from the leading "-" convention on `orderBy`. -/
inductive SortDir where
  | asc
  | desc
  deriving DecidableEq, Repr

/-- The sort specification built by `getAll` (lines 79–84): `"none"` disables
sorting, a leading "-" sorts descending on the remaining key, anything else
sorts ascending. -/
def buildSort (orderBy : String) : Option (String × SortDir) :=
  if orderBy = "none" then none
  else if orderBy.startsWith "-" then some (orderBy.drop 1, .desc)
  else some (orderBy, .asc)

/-- `Math.max(1, parseInt(req.query.page) || 1)` (line 168). -/
def effPage (pageQ : Option String) : Int :=
  max 1 (intOrElse (pageQ.bind jsParseInt) 1)

/-- `Math.min(100, Math.max(1, parseInt(req.query.pageSize) || 50))` (line 169). -/
def effPageSize (pageSizeQ : Option String) : Int :=
  min 100 (max 1 (intOrElse (pageSizeQ.bind jsParseInt) 50))

/-- `Math.ceil(a / b)` for a natural `a` and a positive natural `b`. -/
def mathCeilDiv (a b : Nat) : Nat := (a + b - 1) / b

/-- The `pagination` object of the paginated response (lines 182–187). -/
structure PaginationInfo where
  currentPage : Int
  pageSize : Int
  totalPages : Nat
  totalRecords : Nat
  deriving DecidableEq, Repr

/-- `getPaginatedResults` (lines 167–193).  The external model is represented
by the list of documents matching the filter, in sort order: `countDocuments`
is its length and `find(filters).skip(skip).limit(pageSize)` is
drop-then-take, with `skip = (page - 1) * pageSize` (line 170). -/
def getPaginatedResults {Doc : Type} (pageQ pageSizeQ : Option String)
    (matching : List Doc) : List Doc × PaginationInfo :=
  ((matching.drop ((effPage pageQ - 1) * effPageSize pageSizeQ).toNat).take
      (effPageSize pageSizeQ).toNat,
   { currentPage := effPage pageQ
     pageSize := effPageSize pageSizeQ
     totalPages := mathCeilDiv matching.length (effPageSize pageSizeQ).toNat
     totalRecords := matching.length })

/-- Body of a 200 response from `getAll`: either the plain list of documents,
or the paginated data plus pagination object. -/
inductive GetAllResult (Doc : Type) where
  | plain (data : List Doc)
  | paginated (data : List Doc) (pagination : PaginationInfo)
  deriving DecidableEq, Repr

/-- `getAll` (lines 63–96), success path: builds the filter and sort, then
dispatches on JS-truthiness of `req.query.page` (line 86) to the paginated or
plain fetch.  `find` is the external model's filtered, sorted fetch. -/
def getAll {Doc : Type} (queryList : List String) (search : String)
    (orderBy : String) (q : String → Option String)
    (find : List (String × FilterVal) → Option (String × SortDir) → List Doc) :
    GetAllResult Doc :=
  if jsTruthy (q "page") then
    let r := getPaginatedResults (q "page") (q "pageSize")
      (find (buildFilters queryList search q) (buildSort orderBy))
    .paginated r.1 r.2
  else
    .plain (find (buildFilters queryList search q) (buildSort orderBy))

/-- The uniform response envelope `{success, data|error}` together with the
HTTP status code it is sent with. -/
inductive Response (Doc : Type) where
  | success (status : Nat) (data : Doc)
  | failure (status : Nat) (error : String)
  deriving DecidableEq, Repr

/-- The fallback identifier check `/^[0-9a-fA-F]{24}$/.test(id)` (line 39),
used when no native validator is available. -/
def isHex24 (s : String) : Bool :=
  s.length == 24 &&
    s.toList.all (fun c =>
      c.isDigit || ('a' ≤ c && c ≤ 'f') || ('A' ≤ c && c ≤ 'F'))

/-- `getObjectById` (lines 35–58).  `isValidId` is the identifier-format
check (the database's native `mongoose.Types.ObjectId.isValid` when present,
`isHex24` as the fallback); `findById` is the external model lookup, with
`Except.error` modelling a rejected promise.  The JS function either sends an
error response and returns `null`, or returns the document; that is an
`Except` of the response already sent. -/
def getObjectById {Doc : Type} (isValidId : String → Bool)
    (findById : String → Except String (Option Doc)) (id : String) :
    Except (Response Doc) Doc :=
  if !isValidId id then .error (.failure 400 "Invalid ID format.")
  else
    match findById id with
    | .error _ => .error (.failure 500 "Database lookup failed.")
    | .ok none => .error (.failure 404 "Entry not found.")
    | .ok (some doc) => .ok doc

/-- `getById` (lines 101–106): resolve via `getObjectById` and answer 200 with
the document when it was found. -/
def getById {Doc : Type} (isValidId : String → Bool)
    (findById : String → Except String (Option Doc)) (id : String) :
    Response Doc :=
  match getObjectById isValidId findById id with
  | .error r => r
  | .ok doc => .success 200 doc

/-- The configured post-create hook: the constructor default is the string
sentinel `"none"`; `typeof this.runAfterCreate === "function"` (line 114)
selects the `fn` case.  The hook may itself reject (`Except.error`). -/
inductive RunAfterCreate (Doc : Type) where
  | disabled
  | fn (f : Doc → Except String Unit)

/-- Observable outcome of `create` (lines 111–126): the HTTP response, the
list of arguments the post-create hook was invoked with, and the hook error
logged by the inner `catch` (line 118), if any. -/
structure CreateOutcome (Doc : Type) where
  resp : Response Doc
  callbackCalls : List Doc
  loggedCallbackError : Option String

/-- `create` (lines 111–126).  `insert` is the settled result of
`this.model.create(req.body)`; a rejection carries `error.message`, and the
reply uses the fallback text when that message is falsy (line 124).  A
configured hook is invoked once with the created document; its own rejection
is caught and logged, never examined further. -/
def create {Doc : Type} (insert : Except String Doc) (hook : RunAfterCreate Doc) :
    CreateOutcome Doc :=
  match insert with
  | .error e =>
    { resp := .failure 400 (if e = "" then "Failed to create entry." else e)
      callbackCalls := []
      loggedCallbackError := none }
  | .ok doc =>
    match hook with
    | .disabled =>
      { resp := .success 201 doc
        callbackCalls := []
        loggedCallbackError := none }
    | .fn f =>
      { resp := .success 201 doc
        callbackCalls := [doc]
        loggedCallbackError :=
          match f doc with
          | .error e => some e
          | .ok _ => none }

/-- The immutable controller configuration stored by the constructor
(lines 18–22). -/
structure Config (Model Doc : Type) where
  model : Model
  orderBy : String
  query : List String
  search : String
  runAfterCreate : RunAfterCreate Doc

/-- The `ControllerSets` constructor (lines 8–30): `Except.error` models the
synchronous `throw new Error(...)` on a falsy `model` argument (absent model =
`Option.none`). -/
def mkControllerSets {Model Doc : Type} (model : Option Model) (orderBy : String)
    (query : List String) (search : String) (runAfterCreate : RunAfterCreate Doc) :
    Except String (Config Model Doc) :=
  match model with
  | none => .error "ControllerSets: Mongoose model is required."
  | some m => .ok ⟨m, orderBy, query, search, runAfterCreate⟩

/-- `createRouter` (router_verify.js lines 13–41) up to controller
construction: the factory constructs the `ControllerSets` before registering
any route, so an absent model propagates the constructor's synchronous throw
out of the factory.  The route table is the five (method, path) pairs of
lines 34–38. -/
def createRouterFactory {Model Doc : Type} (model : Option Model) (orderBy : String)
    (query : List String) (search : String) (runAfterCreate : RunAfterCreate Doc) :
    Except String (Config Model Doc × List (String × String)) :=
  (mkControllerSets model orderBy query search runAfterCreate).map
    (fun c =>
      (c, [("get", "/"), ("post", "/"), ("get", "/:id"), ("patch", "/:id"),
           ("delete", "/:id")]))

end ControllerSets

namespace Router

/-- Outcome of one wrapped handler invocation: the handler's own settled
value, or the rejection forwarded to `next` by `asyncHandler`. -/
inductive HandlerOut (E A : Type) where
  | done (a : A)
  | nextErr (e : E)
  deriving DecidableEq, Repr

/-- `asyncHandler` (router_verify.js lines 9–11):
`Promise.resolve(fn(req, res, next)).catch(next)` — a rejected handler
promise is forwarded to the centralized error path instead of escaping. -/
def asyncHandler {Req E A : Type} (fn : Req → Except E A) : Req → HandlerOut E A :=
  fun req =>
    match fn req with
    | .ok a => .done a
    | .error e => .nextErr e

/-- The route table registered by `createRouter` (router_verify.js
lines 34–38); each entry is (HTTP method, path, wrapped handler), and every
handler is registered through `asyncHandler`. -/
def createRouter {Req E A : Type}
    (getAllH createH getByIdH updateH deleteH : Req → Except E A) :
    List (String × String × (Req → HandlerOut E A)) :=
  [("get", "/", asyncHandler getAllH),
   ("post", "/", asyncHandler createH),
   ("get", "/:id", asyncHandler getByIdH),
   ("patch", "/:id", asyncHandler updateH),
   ("delete", "/:id", asyncHandler deleteH)]

end Router

namespace S3Upload

/-- One uploaded file after multer-s3 storage: the multipart field it was sent
under and the stored object's location URL. -/
structure UploadedFile where
  fieldname : String
  location : String
  deriving DecidableEq, Repr

/-- One `{name, maxCount}` upload field descriptor (s3upload.js line 39). -/
structure FieldDesc where
  name : String
  maxCount : Nat
  deriving DecidableEq, Repr

/-- A value written into `req.body` by the middleware: a single location
string or a list of location strings. -/
inductive BodyVal where
  | str (s : String)
  | list (l : List String)
  deriving DecidableEq, Repr

/-- `requiredEnv` (s3upload.js line 10). -/
def requiredEnv : List String :=
  ["S3_ENDPOINT", "S3_SPACES_KEY", "S3_SPACES_SECRET", "S3_BUCKET_NAME"]

/-- `missingEnv` (line 11): the required keys whose environment value is
falsy. -/
def missingEnv (env : String → Option String) : List String :=
  requiredEnv.filter (fun k => !jsTruthy (env k))

/-- The files of the request that were sent under the given field name, in
arrival order (`req.files[name]` as populated by multer's fields mode). -/
def fieldFiles (files : List UploadedFile) (name : String) : List UploadedFile :=
  files.filter (fun f => f.fieldname == name)

/-- Modelled behaviour of `upload.single(name)` from the multer library (an
external dependency, line 93): at most one file, and only under the expected
field name, is accepted; any other file aborts the request with a MulterError
whose message is "Unexpected field".  On success `req.file` holds the single
accepted file, if any. -/
def multerSingle (name : String) (files : List UploadedFile) :
    Except String (Option UploadedFile) :=
  match files with
  | [] => .ok none
  | [f] => if f.fieldname == name then .ok (some f) else .error "Unexpected field"
  | _ => .error "Unexpected field"

/-- Modelled behaviour of `upload.fields(fields)` from the multer library
(line 95): every file's field name must be declared and each field may carry
at most `maxCount` files, otherwise the request aborts with a MulterError
whose message is "Unexpected field". -/
def multerFieldsOk (fields : List FieldDesc) (files : List UploadedFile) : Bool :=
  files.all (fun f => fields.any (fun d => d.name == f.fieldname)) &&
    fields.all (fun d => (fieldFiles files d.name).length ≤ d.maxCount)

/-- One step of the body rewrite in `handleUploadResult` (lines 80–86): if the
field received files, assign a single location string when `maxCount === 1`
and the list of locations otherwise. -/
def assignField (fs : List UploadedFile) (b : List (String × BodyVal))
    (fd : FieldDesc) : List (String × BodyVal) :=
  match (fieldFiles fs fd.name).map UploadedFile.location with
  | [] => b
  | l :: ls => setKey b fd.name (if fd.maxCount = 1 then .str l else .list (l :: ls))

/-- The body rewrite of `handleUploadResult` (lines 76–87): with exactly one
descriptor and `req.file` set, the field name is assigned the single
location; otherwise, when `req.files` is set, each descriptor with files is
assigned per `assignField`. -/
def rewriteBody (fields : List FieldDesc) (reqFile : Option UploadedFile)
    (reqFiles : Option (List UploadedFile)) (body : List (String × BodyVal)) :
    List (String × BodyVal) :=
  match fields, reqFile with
  | [fd], some f => setKey body fd.name (.str f.location)
  | _, _ =>
    match reqFiles with
    | none => body
    | some fs => fields.foldl (assignField fs) body

/-- What the middleware did with the request: a response it sent itself, or a
call to `next()` with the rewritten body. -/
inductive AdapterResult where
  | respond (status : Nat) (error : String)
  | next (body : List (String × BodyVal))
  deriving DecidableEq, Repr

/-- Outcome of one middleware run: the result plus the files that were
actually stored in the bucket. -/
structure AdapterOutcome where
  result : AdapterResult
  stored : List UploadedFile
  deriving DecidableEq, Repr

/-- `fileUploadMiddleware` (s3upload.js lines 34–97).  The missing-env check
(lines 42–47) answers 503 before any storage client is touched.  With exactly
one descriptor the middleware runs `upload.single` (line 93, populating
`req.file`), otherwise `upload.fields` (line 95, populating `req.files`); a
multer error is answered with 500 and the error message (lines 68–74), and on
success the body is rewritten and `next()` is called (lines 76–88). -/
def fileUploadMiddleware (env : String → Option String) (fields : List FieldDesc)
    (files : List UploadedFile) (body : List (String × BodyVal)) :
    AdapterOutcome :=
  if missingEnv env ≠ [] then
    { result := .respond 503 "S3 service is not properly configured on the server."
      stored := [] }
  else
    match fields with
    | [fd] =>
      match multerSingle fd.name files with
      | .error e => { result := .respond 500 e, stored := [] }
      | .ok reqFile =>
        { result := .next (rewriteBody [fd] reqFile none body)
          stored :=
            match reqFile with
            | some f => [f]
            | none => [] }
    | _ =>
      if multerFieldsOk fields files then
        { result := .next (rewriteBody fields none (some files) body)
          stored := files }
      else
        { result := .respond 500 "Unexpected field", stored := [] }

end S3Upload

/-!
Helper lemmas, then one theorem per verified claim (with witnesses where the
theorem carries hypotheses).
-/

theorem getVal_setKey {α : Type} (m : List (String × α)) (k k' : String) (v : α) :
    getVal (setKey m k v) k' = if k = k' then some v else getVal m k' := by
  induction m with
  | nil =>
    by_cases h : k = k' <;> simp [setKey, getVal, h]
  | cons hd tl ih =>
    obtain ⟨k₀, v₀⟩ := hd
    by_cases h0 : k₀ = k
    · subst h0
      by_cases h1 : k₀ = k' <;> simp [setKey, getVal, h1]
    · by_cases h1 : k₀ = k'
      · subst h1
        have h2 : ¬k = k₀ := fun h => h0 h.symm
        simp [setKey, getVal, h0, h2]
      · simp [setKey, getVal, h0, h1, ih]

namespace ControllerSets

theorem getVal_baseFilters_aux (q : String → Option String) (f : String)
    (queryList : List String) (acc : List (String × FilterVal)) :
    getVal
      (queryList.foldl
        (fun acc k =>
          match q k with
          | some v => setKey acc k (.verbatim v)
          | none => acc)
        acc) f =
      if f ∈ queryList ∧ (q f).isSome then (q f).map .verbatim else getVal acc f := by
  induction queryList generalizing acc with
  | nil => simp
  | cons hd tl ih =>
    simp only [List.foldl_cons]
    cases hq : q hd with
    | none =>
      rw [ih]
      by_cases hmem : f ∈ tl ∧ (q f).isSome
      · rw [if_pos hmem, if_pos ⟨List.mem_cons_of_mem hd hmem.1, hmem.2⟩]
      · rw [if_neg hmem]
        by_cases he : f = hd
        · subst he
          rw [if_neg (by simp [hq])]
        · rw [if_neg (by
            rintro ⟨hmem', hsome⟩
            rcases List.mem_cons.mp hmem' with h | h
            · exact he h
            · exact hmem ⟨h, hsome⟩)]
    | some v =>
      rw [ih]
      by_cases he : f = hd
      · subst he
        by_cases hmem : f ∈ tl ∧ (q f).isSome
        · rw [if_pos hmem, if_pos ⟨List.mem_cons_of_mem f hmem.1, hmem.2⟩]
        · rw [if_neg hmem, getVal_setKey, if_pos rfl,
            if_pos ⟨List.mem_cons_self f tl, by rw [hq]; rfl⟩, hq]
          rfl
      · by_cases hmem : f ∈ tl ∧ (q f).isSome
        · rw [if_pos hmem, if_pos ⟨List.mem_cons_of_mem hd hmem.1, hmem.2⟩]
        · rw [if_neg hmem, getVal_setKey, if_neg (fun h => he h.symm),
            if_neg (by
              rintro ⟨hmem', hsome⟩
              rcases List.mem_cons.mp hmem' with h | h
              · exact he h
              · exact hmem ⟨h, hsome⟩)]

theorem getVal_baseFilters (queryList : List String) (q : String → Option String)
    (f : String) :
    getVal (baseFilters queryList q) f =
      if f ∈ queryList ∧ (q f).isSome then (q f).map .verbatim else none := by
  rw [baseFilters, getVal_baseFilters_aux]
  rfl

/-- Complete characterisation of the filter object built by `getAll`:
a field maps to the case-insensitive regex when it is the active search field,
to the verbatim query value when it is allow-listed and present, and to
nothing otherwise. -/
theorem getVal_buildFilters (queryList : List String) (search : String)
    (q : String → Option String) (f : String) :
    getVal (buildFilters queryList search q) f =
      match q f with
      | none => none
      | some v =>
        if f = search ∧ search ≠ "none" ∧ v ≠ "" then some (.regex v "i")
        else if f ∈ queryList then some (.verbatim v) else none := by
  unfold buildFilters
  split
  next w hs =>
    by_cases hcond : search ≠ "none" ∧ w ≠ ""
    · rw [if_pos hcond, getVal_setKey]
      by_cases heq : search = f
      · subst heq
        simp [hs, hcond.1, hcond.2]
      · rw [if_neg heq]
        have hfs : ¬(f = search) := fun h => heq h.symm
        cases hf : q f with
        | none => simp [getVal_baseFilters, hf]
        | some v =>
          by_cases hmem : f ∈ queryList <;>
            simp [getVal_baseFilters, hf, hfs, hmem]
    · rw [if_neg hcond]
      cases hf : q f with
      | none => simp [getVal_baseFilters, hf]
      | some v =>
        by_cases heq : f = search
        · subst heq
          rw [hs] at hf
          cases hf
          have hne : ¬(f = f ∧ f ≠ "none" ∧ w ≠ "") := by tauto
          by_cases hmem : f ∈ queryList <;>
            simp [getVal_baseFilters, hs, hmem, hne, hcond]
        · have hne : ¬(f = search ∧ search ≠ "none" ∧ v ≠ "") := fun h => heq h.1
          by_cases hmem : f ∈ queryList <;>
            simp [getVal_baseFilters, hf, hmem, hne]
  next hs =>
    cases hf : q f with
    | none => simp [getVal_baseFilters, hf]
    | some v =>
      have hne : ¬(f = search ∧ search ≠ "none" ∧ v ≠ "") := by
        rintro ⟨rfl, -, -⟩
        rw [hs] at hf
        exact Option.noConfusion hf
      by_cases hmem : f ∈ queryList <;>
        simp [getVal_baseFilters, hf, hmem, hne]

/-- C1: the filter mapping issued by a list request contains exactly the
allow-listed fields present in the query string, each bound to the raw query
value verbatim, plus possibly the configured search field (bound to its regex
match); every other field — in particular any client-supplied field outside
the allow-list — is absent from the filter. -/
theorem getAll_filter_contains_exactly_allowlist (queryList : List String)
    (search : String) (q : String → Option String) (f : String) :
    getVal (buildFilters queryList search q) f =
      match q f with
      | none => none
      | some v =>
        if f = search ∧ search ≠ "none" ∧ v ≠ "" then some (.regex v "i")
        else if f ∈ queryList then some (.verbatim v) else none :=
  getVal_buildFilters queryList search q f

/-- C7: when the search field is configured (not "none") and the query string
supplies a non-empty value for it, the issued filter binds that field to the
case-insensitive regex match on the supplied value — even when the same field
also sits in the allow-list, whose verbatim entry it overrides. -/
theorem getAll_search_overrides_allowlist (queryList : List String)
    (search : String) (q : String → Option String) (v : String)
    (hs : search ≠ "none") (hv : q search = some v) (hne : v ≠ "") :
    getVal (buildFilters queryList search q) search = some (.regex v "i") := by
  rw [getVal_buildFilters, hv]
  simp [hs, hne]

/-- Witness for C7, with the search field also present in the allow-list:
the verbatim entry for "title" is overridden by the regex entry. -/
theorem getAll_search_overrides_allowlist_witness :
    getVal
      (buildFilters ["title", "brand"] "title"
        (fun k => if k = "title" then some "abc" else none))
      "title" = some (.regex "abc" "i") :=
  getAll_search_overrides_allowlist ["title", "brand"] "title"
    (fun k => if k = "title" then some "abc" else none) "abc"
    (by decide) (by simp) (by decide)

end ControllerSets

namespace ControllerSets

theorem le_mathCeilDiv_mul (a b : Nat) (hb : 1 ≤ b) : a ≤ mathCeilDiv a b * b := by
  unfold mathCeilDiv
  have h := Nat.div_add_mod (a + b - 1) b
  have h2 : (a + b - 1) % b < b := Nat.mod_lt _ (by omega)
  rw [Nat.mul_comm] at h
  generalize hx : (a + b - 1) / b * b = x at h ⊢
  generalize hr : (a + b - 1) % b = r at h h2
  omega

theorem mathCeilDiv_pred_mul_lt (a b : Nat) (hb : 1 ≤ b) (ha : a ≠ 0) :
    (mathCeilDiv a b - 1) * b < a := by
  unfold mathCeilDiv
  have h : (a + b - 1) / b * b ≤ a + b - 1 := Nat.div_mul_le_self _ _
  rw [Nat.sub_mul, Nat.one_mul]
  generalize hx : (a + b - 1) / b * b = x at h ⊢
  omega

theorem one_le_effPage (pageQ : Option String) : 1 ≤ effPage pageQ :=
  le_max_left 1 _

theorem one_le_effPageSize (pageSizeQ : Option String) : 1 ≤ effPageSize pageSizeQ :=
  le_min (by omega) (le_max_left 1 _)

theorem effPageSize_le_100 (pageSizeQ : Option String) : effPageSize pageSizeQ ≤ 100 :=
  min_le_left 100 _

/-- C2: on the paginated list path the effective page is clamped to ≥ 1 and
the effective page size to [1,100]; the fetch drops `(page-1)*pageSize`
documents and keeps at most `pageSize`; the reported pagination carries the
clamped page and page size, the count of matching documents, and the ceiling
`totalPages` (characterised as the least page count covering all records);
and in particular a requested `pageSize` of 500 is clamped to 100 while a
requested `page` of 0 is clamped to 1. -/
theorem getPaginatedResults_spec {Doc : Type} (pageQ pageSizeQ : Option String)
    (matching : List Doc) :
    1 ≤ (getPaginatedResults pageQ pageSizeQ matching).2.currentPage ∧
    1 ≤ (getPaginatedResults pageQ pageSizeQ matching).2.pageSize ∧
    (getPaginatedResults pageQ pageSizeQ matching).2.pageSize ≤ 100 ∧
    (getPaginatedResults pageQ pageSizeQ matching).2.currentPage = effPage pageQ ∧
    (getPaginatedResults pageQ pageSizeQ matching).2.pageSize = effPageSize pageSizeQ ∧
    (getPaginatedResults pageQ pageSizeQ matching).1 =
      (matching.drop ((effPage pageQ - 1) * effPageSize pageSizeQ).toNat).take
        (effPageSize pageSizeQ).toNat ∧
    (getPaginatedResults pageQ pageSizeQ matching).2.totalRecords = matching.length ∧
    (getPaginatedResults pageQ pageSizeQ matching).2.totalRecords ≤
      (getPaginatedResults pageQ pageSizeQ matching).2.totalPages *
        (getPaginatedResults pageQ pageSizeQ matching).2.pageSize.toNat ∧
    ((getPaginatedResults pageQ pageSizeQ matching).2.totalRecords = 0 ∨
      ((getPaginatedResults pageQ pageSizeQ matching).2.totalPages - 1) *
        (getPaginatedResults pageQ pageSizeQ matching).2.pageSize.toNat <
        (getPaginatedResults pageQ pageSizeQ matching).2.totalRecords) ∧
    effPageSize (some "500") = 100 ∧
    effPage (some "0") = 1 := by
  have hps1 : 1 ≤ effPageSize pageSizeQ := one_le_effPageSize pageSizeQ
  have hb : 1 ≤ (effPageSize pageSizeQ).toNat := by omega
  refine ⟨one_le_effPage pageQ, hps1, effPageSize_le_100 pageSizeQ, rfl, rfl, rfl, rfl,
    le_mathCeilDiv_mul _ _ hb, ?_, by decide, by decide⟩
  rcases Nat.eq_zero_or_pos matching.length with h0 | h0
  · exact Or.inl h0
  · exact Or.inr (mathCeilDiv_pred_mul_lt _ _ hb (by omega))

end ControllerSets

namespace ControllerSets

/-- C4: a getById request answers 400 when the identifier fails the
identifier-format check, 404 when the identifier is well-formed but the
lookup finds no document, and 200 with the document when one matches. -/
theorem getById_status_spec {Doc : Type} (isValidId : String → Bool)
    (findById : String → Except String (Option Doc)) (id : String) :
    (isValidId id = false →
      getById isValidId findById id = .failure 400 "Invalid ID format.") ∧
    (isValidId id = true → findById id = .ok none →
      getById isValidId findById id = .failure 404 "Entry not found.") ∧
    (∀ doc, isValidId id = true → findById id = .ok (some doc) →
      getById isValidId findById id = .success 200 doc) := by
  refine ⟨?_, ?_, ?_⟩
  · intro h
    simp [getById, getObjectById, h]
  · intro h hdb
    simp [getById, getObjectById, h, hdb]
  · intro doc h hdb
    simp [getById, getObjectById, h, hdb]

/-- Witness for C4, over the 24-hex fallback validator: a 10-character
non-hex identifier answers 400, a well-formed absent identifier answers 404,
and a well-formed present identifier answers 200 with the document. -/
theorem getById_status_spec_witness :
    @getById Nat isHex24 (fun _ => .ok none) "0123456789" =
      .failure 400 "Invalid ID format." ∧
    @getById Nat isHex24 (fun _ => .ok none) "0123456789abcdef01234567" =
      .failure 404 "Entry not found." ∧
    @getById Nat isHex24
      (fun i => .ok (if i = "0123456789abcdef01234567" then some 7 else none))
      "0123456789abcdef01234567" = .success 200 7 :=
  ⟨(getById_status_spec isHex24 (fun _ => .ok none) "0123456789").1 (by decide),
   (getById_status_spec isHex24 (fun _ => .ok none) "0123456789abcdef01234567").2.1
     (by decide) rfl,
   (getById_status_spec isHex24
       (fun i => .ok (if i = "0123456789abcdef01234567" then some 7 else none))
       "0123456789abcdef01234567").2.2 7 (by decide) (by simp)⟩

/-- C5: a failing insert answers 400 with the underlying error message and
never invokes the post-create hook; a successful insert answers 201 with the
created document and invokes a configured hook exactly once with it. -/
theorem create_status_and_callback_spec {Doc : Type} (insert : Except String Doc)
    (hook : RunAfterCreate Doc) :
    (∀ e, insert = .error e →
      (create insert hook).resp =
        .failure 400 (if e = "" then "Failed to create entry." else e) ∧
      (create insert hook).callbackCalls = []) ∧
    (∀ doc, insert = .ok doc →
      (create insert hook).resp = .success 201 doc ∧
      (∀ f, hook = .fn f → (create insert hook).callbackCalls = [doc])) := by
  constructor
  · rintro e rfl
    simp [create]
  · rintro doc rfl
    cases hook with
    | disabled => simp [create]
    | fn f => simp [create]

/-- Witness for C5: a rejected insert with message "bad" answers 400 and the
hook call list is empty; a successful insert of document 5 answers 201 and
the hook call list is exactly [5]. -/
theorem create_status_and_callback_spec_witness :
    ((@create Nat (.error "bad") (.fn (fun _ => .ok ()))).resp =
        .failure 400 "bad" ∧
      (@create Nat (.error "bad") (.fn (fun _ => .ok ()))).callbackCalls = []) ∧
    ((@create Nat (.ok 5) (.fn (fun _ => .ok ()))).resp = .success 201 5 ∧
      (@create Nat (.ok 5) (.fn (fun _ => .ok ()))).callbackCalls = [5]) :=
  ⟨((create_status_and_callback_spec (.error "bad") (.fn (fun _ => .ok ()))).1 "bad"
      rfl).imp (by simp) id,
   ⟨((@create_status_and_callback_spec Nat (.ok 5)
        (.fn (fun _ => .ok ()))).2 5 rfl).1,
    ((@create_status_and_callback_spec Nat (.ok 5)
        (.fn (fun _ => .ok ()))).2 5 rfl).2 _ rfl⟩⟩

/-- C6: when the insert succeeds, a rejecting post-create hook does not change
the response — it stays 201 with the created document, and the hook error is
only logged. -/
theorem create_callback_failure_isolated {Doc : Type} (insert : Except String Doc)
    (hook : RunAfterCreate Doc) (doc : Doc) (f : Doc → Except String Unit)
    (e : String) (h1 : insert = .ok doc) (h2 : hook = .fn f)
    (h3 : f doc = .error e) :
    (create insert hook).resp = .success 201 doc ∧
    (create insert hook).loggedCallbackError = some e := by
  subst h1
  subst h2
  simp [create, h3]

/-- Witness for C6: with a hook that always rejects with "boom", creating
document 3 still answers 201 and logs "boom". -/
theorem create_callback_failure_isolated_witness :
    (@create Nat (.ok 3) (.fn (fun _ => .error "boom"))).resp =
      .success 201 3 ∧
    (@create Nat (.ok 3) (.fn (fun _ => .error "boom"))).loggedCallbackError =
      some "boom" :=
  create_callback_failure_isolated (.ok 3) (.fn (fun _ => .error "boom")) 3
    (fun _ => .error "boom") "boom" rfl rfl rfl

/-- C10: constructing a `ControllerSets` with an absent (falsy) model throws
synchronously with the message "ControllerSets: Mongoose model is required.",
and building a router with an absent model propagates that same constructor
throw before any route is registered. -/
theorem construct_without_model_throws {Model Doc : Type} (orderBy : String)
    (query : List String) (search : String) (runAfterCreate : RunAfterCreate Doc) :
    @mkControllerSets Model Doc none orderBy query search runAfterCreate =
      .error "ControllerSets: Mongoose model is required." ∧
    @createRouterFactory Model Doc none orderBy query search runAfterCreate =
      .error "ControllerSets: Mongoose model is required." :=
  ⟨rfl, rfl⟩

end ControllerSets

namespace Router

/-- C9: every route handler registered by the router factory is the
`asyncHandler` wrap of its underlying handler, and whenever the underlying
handler rejects with `e`, the registered handler forwards `e` to the
centralized error path (`next(e)`) instead of letting it escape. -/
theorem router_handlers_forward_rejections {Req E A : Type}
    (getAllH createH getByIdH updateH deleteH : Req → Except E A) :
    ∀ route ∈ createRouter getAllH createH getByIdH updateH deleteH,
      ∃ fn, route.2.2 = asyncHandler fn ∧
        ∀ req e, fn req = .error e → route.2.2 req = .nextErr e := by
  intro route hroute
  have hstep : ∀ fn : Req → Except E A, ∀ req e, fn req = .error e →
      asyncHandler fn req = .nextErr e := by
    intro fn req e h
    simp [asyncHandler, h]
  simp only [createRouter, List.mem_cons, List.not_mem_nil, or_false] at hroute
  rcases hroute with rfl | rfl | rfl | rfl | rfl
  · exact ⟨getAllH, rfl, hstep getAllH⟩
  · exact ⟨createH, rfl, hstep createH⟩
  · exact ⟨getByIdH, rfl, hstep getByIdH⟩
  · exact ⟨updateH, rfl, hstep updateH⟩
  · exact ⟨deleteH, rfl, hstep deleteH⟩

/-- Witness for C9: the first registered route of a concrete router, whose
underlying handler always rejects with "boom"; the wrapped handler forwards
that rejection. -/
theorem router_handlers_forward_rejections_witness :
    ∃ fn, (("get", "/",
        asyncHandler (fun _ : Nat => (Except.error "boom" : Except String Nat))) :
          String × String × (Nat → HandlerOut String Nat)).2.2 = asyncHandler fn ∧
      ∀ req e, fn req = .error e →
        (("get", "/",
          asyncHandler (fun _ : Nat => (Except.error "boom" : Except String Nat))) :
            String × String × (Nat → HandlerOut String Nat)).2.2 req = .nextErr e :=
  router_handlers_forward_rejections
    (fun _ => Except.error "boom") (fun _ => Except.error "boom")
    (fun _ => Except.error "boom") (fun _ => Except.error "boom")
    (fun _ => Except.error "boom")
    ("get", "/", asyncHandler (fun _ : Nat => (Except.error "boom" : Except String Nat)))
    (List.Mem.head _)

end Router

namespace S3Upload

theorem getVal_foldl_assignField_not_mem (fs : List UploadedFile)
    (fields : List FieldDesc) (b : List (String × BodyVal)) (k : String)
    (hk : ∀ d ∈ fields, d.name ≠ k) :
    getVal (fields.foldl (assignField fs) b) k = getVal b k := by
  induction fields generalizing b with
  | nil => rfl
  | cons fd tl ih =>
    simp only [List.foldl_cons]
    rw [ih _ (fun d hd => hk d (List.mem_cons_of_mem fd hd))]
    unfold assignField
    cases hm : (fieldFiles fs fd.name).map UploadedFile.location with
    | nil => rfl
    | cons l ls =>
      rw [getVal_setKey, if_neg (hk fd (List.mem_cons_self fd tl))]

theorem getVal_foldl_assignField (fs : List UploadedFile)
    (fields : List FieldDesc) (b : List (String × BodyVal)) (d : FieldDesc)
    (hnodup : (fields.map FieldDesc.name).Nodup) (hd : d ∈ fields)
    (l : String) (ls : List String)
    (hl : (fieldFiles fs d.name).map UploadedFile.location = l :: ls) :
    getVal (fields.foldl (assignField fs) b) d.name =
      some (if d.maxCount = 1 then .str l else .list (l :: ls)) := by
  induction fields generalizing b with
  | nil => cases hd
  | cons fd tl ih =>
    simp only [List.map_cons, List.nodup_cons] at hnodup
    simp only [List.foldl_cons]
    rcases List.mem_cons.mp hd with rfl | hmem
    · have hnot : ∀ e ∈ tl, e.name ≠ d.name := by
        intro e he heq
        exact hnodup.1 (heq ▸ List.mem_map_of_mem FieldDesc.name he)
      rw [getVal_foldl_assignField_not_mem fs tl _ d.name hnot]
      unfold assignField
      simp only [hl]
      rw [getVal_setKey, if_pos rfl]
    · exact ih _ hnodup.2 hmem

/-- C8: with any required object-storage configuration value absent, the
middleware answers 503 immediately, stores nothing, and never calls
`next()`. -/
theorem upload_missing_env_responds_503 (env : String → Option String)
    (fields : List FieldDesc) (files : List UploadedFile)
    (body : List (String × BodyVal)) (k : String)
    (hk : k ∈ requiredEnv) (hv : jsTruthy (env k) = false) :
    fileUploadMiddleware env fields files body =
      { result := .respond 503 "S3 service is not properly configured on the server."
        stored := [] } ∧
    ∀ b, (fileUploadMiddleware env fields files body).result ≠ .next b := by
  have hmem : k ∈ missingEnv env := List.mem_filter.mpr ⟨hk, by simp [hv]⟩
  have hne : missingEnv env ≠ [] := by
    intro h
    rw [h] at hmem
    exact List.not_mem_nil k hmem
  constructor
  · simp [fileUploadMiddleware, hne]
  · intro b
    simp [fileUploadMiddleware, hne]

/-- Witness for C8: with an entirely empty environment, the endpoint key is
missing, so the adapter answers 503 and never calls onward. -/
theorem upload_missing_env_responds_503_witness :
    fileUploadMiddleware (fun _ => none) [⟨"file", 1⟩] [] [] =
      { result := .respond 503 "S3 service is not properly configured on the server."
        stored := [] } ∧
    ∀ b, (fileUploadMiddleware (fun _ => none) [⟨"file", 1⟩] [] []).result ≠ .next b :=
  upload_missing_env_responds_503 (fun _ => none) [⟨"file", 1⟩] [] [] "S3_ENDPOINT"
    (by decide) rfl

/-- C3 counterexample: with the single descriptor `{name:"photos", maxCount:5}`
and three uploaded files, the middleware runs `upload.single` (because the
descriptor list has length one), which rejects the extra files: the request is
answered 500 "Unexpected field" — the body is never rewritten to a
three-element location list. -/
theorem upload_single_descriptor_maxcount_counterexample :
    (fileUploadMiddleware (fun _ => some "configured") [⟨"photos", 5⟩]
        [⟨"photos", "u1"⟩, ⟨"photos", "u2"⟩, ⟨"photos", "u3"⟩] []).result =
      .respond 500 "Unexpected field" ∧
    (fileUploadMiddleware (fun _ => some "configured") [⟨"photos", 5⟩]
        [⟨"photos", "u1"⟩, ⟨"photos", "u2"⟩, ⟨"photos", "u3"⟩] []).result ≠
      .next [("photos", .list ["u1", "u2", "u3"])] := by
  constructor
  · decide
  · decide

/-- C3 as amended: the maxCount-driven rewrite (single location string when
`maxCount = 1`, list of locations otherwise) holds on the multi-descriptor
path — a descriptor list of length ≥ 2 with pairwise-distinct names whose
files pass multer's limits; on the single-descriptor path the middleware runs
`upload.single`, so one accepted file is written back as a single location
string regardless of the descriptor's maxCount. -/
theorem upload_body_rewrite_amended (env : String → Option String)
    (body : List (String × BodyVal)) (fields : List FieldDesc)
    (files : List UploadedFile) (d : FieldDesc) (l : String) (ls : List String)
    (henv : missingEnv env = []) (h2 : 2 ≤ fields.length)
    (hok : multerFieldsOk fields files = true)
    (hnodup : (fields.map FieldDesc.name).Nodup) (hd : d ∈ fields)
    (hl : (fieldFiles files d.name).map UploadedFile.location = l :: ls) :
    ((fileUploadMiddleware env fields files body).result =
      .next (fields.foldl (assignField files) body) ∧
     getVal (fields.foldl (assignField files) body) d.name =
      some (if d.maxCount = 1 then .str l else .list (l :: ls))) ∧
    (∀ fd f, f.fieldname = fd.name →
      (fileUploadMiddleware env [fd] [f] body).result =
        .next (setKey body fd.name (.str f.location))) := by
  refine ⟨⟨?_, getVal_foldl_assignField files fields body d hnodup hd l ls hl⟩, ?_⟩
  · rcases fields with _ | ⟨a, tl⟩
    · simp at h2
    · rcases tl with _ | ⟨b, rest⟩
      · simp at h2
      · simp [fileUploadMiddleware, rewriteBody, henv, hok]
  · intro fd f hf
    simp [fileUploadMiddleware, multerSingle, rewriteBody, henv, hf]

/-- Witness for the amended C3: descriptors thumbnail(max 1) and
attachments(max 5) with two files under "attachments" rewrite the body to a
two-element location list there; a single avatar(max 1) descriptor with one
file rewrites to the single location string. -/
theorem upload_body_rewrite_amended_witness :
    ((fileUploadMiddleware (fun _ => some "x")
        [⟨"thumbnail", 1⟩, ⟨"attachments", 5⟩]
        [⟨"attachments", "u1"⟩, ⟨"attachments", "u2"⟩] []).result =
      .next ([(⟨"thumbnail", 1⟩ : FieldDesc), ⟨"attachments", 5⟩].foldl
        (assignField [⟨"attachments", "u1"⟩, ⟨"attachments", "u2"⟩]) []) ∧
     getVal ([(⟨"thumbnail", 1⟩ : FieldDesc), ⟨"attachments", 5⟩].foldl
        (assignField [⟨"attachments", "u1"⟩, ⟨"attachments", "u2"⟩]) [])
        "attachments" = some (.list ["u1", "u2"])) ∧
    (fileUploadMiddleware (fun _ => some "x") [⟨"avatar", 1⟩]
        [⟨"avatar", "loc"⟩] []).result =
      .next (setKey [] "avatar" (.str "loc")) :=
  ⟨(upload_body_rewrite_amended (fun _ => some "x") []
      [⟨"thumbnail", 1⟩, ⟨"attachments", 5⟩]
      [⟨"attachments", "u1"⟩, ⟨"attachments", "u2"⟩] ⟨"attachments", 5⟩ "u1" ["u2"]
      (by decide) (by decide) (by decide) (by decide) (by decide) (by decide)).1,
   (upload_body_rewrite_amended (fun _ => some "x") []
      [⟨"thumbnail", 1⟩, ⟨"attachments", 5⟩]
      [⟨"attachments", "u1"⟩, ⟨"attachments", "u2"⟩] ⟨"attachments", 5⟩ "u1" ["u2"]
      (by decide) (by decide) (by decide) (by decide) (by decide) (by decide)).2
     ⟨"avatar", 1⟩ ⟨"avatar", "loc"⟩ rfl⟩

end S3Upload
